import Mathlib

/-!
Verification of the RoXX RADIUS authentication core: the backend router
(`roxx/core/radius_backends/manager.py`), the authentication cache
(`roxx/core/radius_backends/cache.py`), the backend configuration store
(`roxx/core/radius_backends/config_db.py`), and the MFA layer
(`roxx/core/auth/mfa.py`, `roxx/core/auth/mfa_db.py`).

The Python classes are embedded shallowly: mutable state (the in-memory
cache dictionary, the SQLite-backed MFA table) becomes explicit state
passing over insertion-ordered association lists (mirroring Python dict
order and SQL row filtering), and the external cryptographic primitives
(SHA-256 from `hashlib`, TOTP verification from `pyotp`) become function
parameters, since the repository treats them as opaque black boxes.
-/

set_option maxRecDepth 4096

namespace RoXX

/-- A RADIUS reply-attribute bag (a Python dict of attributes). -/
abbrev Attrs := List (String × String)

/-- First-match lookup in an insertion-ordered association list.
Models `d[k]` / `k in d` on a Python dict (keys are unique there),
and `SELECT ... WHERE username = ? ... fetchone()` on a keyed table. -/
def lookupKey {β : Type} : List (String × β) → String → Option β
  | [], _ => none
  | (k, v) :: rest, key => if k = key then some v else lookupKey rest key

/-- Removal of the first entry with the given key; models `del d[k]`. -/
def eraseKey {β : Type} : List (String × β) → String → List (String × β)
  | [], _ => []
  | (k, v) :: rest, key => if k = key then rest else (k, v) :: eraseKey rest key

/-- `d[k] = v` on a Python dict: replaces the value in place when the key
exists (keeping its position in insertion order), appends otherwise. -/
def setEntry {β : Type} : List (String × β) → String → β → List (String × β)
  | [], key, v => [(key, v)]
  | (k, w) :: rest, key, v =>
    if k = key then (k, v) :: rest else (k, w) :: setEntry rest key v

/-- One value of `AuthCache._cache`: `(password_hash, timestamp, attributes)`. -/
structure CacheEntry where
  passwordHash : String
  timestamp : Nat
  attrs : Attrs
deriving DecidableEq, Repr

/-- State of `AuthCache` (`cache.py`): TTL, maximum size, the entry
dictionary in insertion order, and the hit/miss counters. -/
structure AuthCache where
  ttl : Nat
  maxSize : Nat
  cache : List (String × CacheEntry)
  hits : Nat
  misses : Nat
deriving DecidableEq, Repr

/-- `AuthCache.get` (`cache.py:36-69`), with `hashlib.sha256(...).hexdigest()`
abstracted as `hash` and `time.time()` as `now`. Returns the Python return
value together with the updated cache state. -/
def AuthCache.get (hash : String → String) (now : Nat) (c : AuthCache)
    (username password : String) : Option (Bool × Attrs) × AuthCache :=
  match lookupKey c.cache username with
  | none => (none, { c with misses := c.misses + 1 })
  | some e =>
    if now - e.timestamp > c.ttl then
      (none, { c with cache := eraseKey c.cache username })
    else if hash password = e.passwordHash then
      (some (true, e.attrs), { c with hits := c.hits + 1 })
    else
      (none, { c with cache := eraseKey c.cache username, misses := c.misses + 1 })

/-- The fold behind `min(self._cache.keys(), key=lambda k: self._cache[k][1])`:
Python's `min` keeps the earliest element on ties, so the accumulator is
replaced only on a strictly smaller timestamp. -/
def oldestAux (k : String) (ts : Nat) : List (String × CacheEntry) → String
  | [] => k
  | (k', e) :: rest =>
    if e.timestamp < ts then oldestAux k' e.timestamp rest else oldestAux k ts rest

/-- Key of the entry with the globally smallest insertion timestamp
(first such key in dictionary order); `none` on an empty dictionary,
where Python's `min` raises `ValueError`. -/
def oldestKey : List (String × CacheEntry) → Option String
  | [] => none
  | (k, e) :: rest => some (oldestAux k e.timestamp rest)

/-- `AuthCache.set` (`cache.py:71-94`). When the dictionary already holds
`max_size` entries the oldest entry is deleted first; if there is no entry
to delete (only possible with `max_size = 0`), `min` over an empty sequence
raises `ValueError`, modelled as `.error ()`. -/
def AuthCache.set (hash : String → String) (now : Nat) (c : AuthCache)
    (username password : String) (attrs : Attrs) : Except Unit AuthCache :=
  if c.cache.length ≥ c.maxSize then
    match oldestKey c.cache with
    | none => .error ()
    | some k =>
      .ok { c with cache := setEntry (eraseKey c.cache k) username ⟨hash password, now, attrs⟩ }
  else
    .ok { c with cache := setEntry c.cache username ⟨hash password, now, attrs⟩ }

/-- `AuthCache.clear` (`cache.py:96-102`). -/
def AuthCache.clear (c : AuthCache) : AuthCache :=
  { c with cache := [], hits := 0, misses := 0 }

/-- One row of the `user_mfa` SQLite table (`mfa_db.py`): enabled flag,
TOTP secret, stored backup-code digests, last-used timestamp. -/
structure MFASettings where
  mfaEnabled : Bool
  totpSecret : Option String
  backupCodes : List String
  lastUsed : Option Nat
deriving DecidableEq, Repr

/-- The `user_mfa` table, keyed by the `username` primary key. -/
abbrev MfaDb := List (String × MFASettings)

/-- `MFADatabase.is_mfa_enabled` (`mfa_db.py:117-121`):
`settings and settings.get('mfa_enabled', False)`. -/
def is_mfa_enabled (db : MfaDb) (username : String) : Bool :=
  match lookupKey db username with
  | some s => s.mfaEnabled
  | none => false

/-- `MFADatabase.update_last_used` (`mfa_db.py:167-179`): SQL `UPDATE`
of `last_used` on every row matching the username. -/
def update_last_used (now : Nat) (db : MfaDb) (username : String) : MfaDb :=
  db.map fun p => if p.1 = username then (p.1, { p.2 with lastUsed := some now }) else p

/-- Python's `str.upper()`, character by character (the backup codes are
ASCII hex strings, where this agrees with `String.toUpper`). -/
def pyUpper (s : String) : String := ⟨s.data.map Char.toUpper⟩

/-- `MFAManager.verify_backup_code` (`mfa.py:113-129`), with
`hashlib.sha256(...).hexdigest()` abstracted as `hashBC`:
digest the upper-cased code and search the stored digests. -/
def verify_backup_code (hashBC : String → String) (code : String)
    (hashedCodes : List String) : Bool × Option String :=
  let codeHash := hashBC (pyUpper code)
  if hashedCodes.contains codeHash then (true, some codeHash) else (false, none)

/-- `MFADatabase.verify_and_consume_backup_code` (`mfa_db.py:124-165`):
look up the enrollment, verify the code, drop the first occurrence of the
matched digest (`list.remove`) and write the row back with a fresh
`last_used`. Returns the success flag and the updated table. -/
def verify_and_consume_backup_code (hashBC : String → String) (now : Nat)
    (db : MfaDb) (username code : String) : Bool × MfaDb :=
  match lookupKey db username with
  | none => (false, db)
  | some s =>
    match verify_backup_code hashBC code s.backupCodes with
    | (true, some matchedHash) =>
      let newCodes := s.backupCodes.erase matchedHash
      (true, db.map fun p =>
        if p.1 = username then
          (p.1, { p.2 with backupCodes := newCodes, lastUsed := some now })
        else p)
    | _ => (false, db)

/-- Outcome of one `backend.authenticate(username, password)` call:
a normal `(granted, attributes)` return, or a raised exception
(`BackendUnavailable` and the like), which the manager catches. -/
inductive BackendResult where
  | ok (granted : Bool) (attrs : Option Attrs)
  | err
deriving DecidableEq

/-- A live backend adapter as the manager sees it (`base.py`): its name,
its enabled flag, and its `authenticate` behaviour. -/
structure RadiusBackend where
  name : String
  enabled : Bool
  auth : String → String → BackendResult

/-- State touched by `RadiusBackendManager`: the adapter chain, the
authentication cache and the MFA enrollment table. -/
structure ManagerState where
  backends : List RadiusBackend
  cache : AuthCache
  mfadb : MfaDb

/-- Result of one `RadiusBackendManager.authenticate` call: the returned
`(success, radius_attributes)` pair, the post-call state, the names of the
backends whose `authenticate` was invoked (in invocation order), and
whether the request was answered from the cache. -/
structure AuthResult where
  granted : Bool
  attrs : Option Attrs
  state : ManagerState
  invoked : List String
  fromCache : Bool

/-- The MFA gate at the top of `RadiusBackendManager.authenticate`
(`manager.py:117-146`), with `MFAManager.verify_totp` abstracted as `vt`.
Returns `(actual_password, totp_verified)` when the request may proceed,
`none` when it is rejected before any cache or backend access. -/
def mfaGate (vt : String → String → Bool) (db : MfaDb)
    (username password : String) : Option (String × Bool) :=
  if is_mfa_enabled db username then
    if 6 < password.length then
      let base := password.take (password.length - 6)
      let token := password.drop (password.length - 6)
      match lookupKey db username with
      | some s =>
        match s.totpSecret with
        | some secret =>
          if secret = "" then none
          else if vt secret token then some (base, true) else none
        | none => none
      | none => none
    else none
  else some (password, false)

/-- The backend loop of `RadiusBackendManager.authenticate`
(`manager.py:155-191`): try each backend, skip disabled ones, catch
exceptions, and on the first success update `last_used` (if MFA applied),
populate the cache, and return. A `ValueError` escaping `cache.set` is
caught by the same `except` and the loop continues. -/
def chainWalk (hash : String → String) (now : Nat)
    (mfaEnabled totpVerified : Bool) (username actual : String) :
    List RadiusBackend → AuthCache → MfaDb →
    (Bool × Option Attrs) × AuthCache × MfaDb × List String
  | [], cache, db => ((false, none), cache, db, [])
  | b :: rest, cache, db =>
    if b.enabled then
      match b.auth username actual with
      | .ok true attrs =>
        let db' := if mfaEnabled && totpVerified then update_last_used now db username else db
        match AuthCache.set hash now cache username actual (attrs.getD []) with
        | .ok cache' => ((true, attrs), cache', db', [b.name])
        | .error _ =>
          let r := chainWalk hash now mfaEnabled totpVerified username actual rest cache db'
          (r.1, r.2.1, r.2.2.1, b.name :: r.2.2.2)
      | .ok false _ =>
        let r := chainWalk hash now mfaEnabled totpVerified username actual rest cache db
        (r.1, r.2.1, r.2.2.1, b.name :: r.2.2.2)
      | .err =>
        let r := chainWalk hash now mfaEnabled totpVerified username actual rest cache db
        (r.1, r.2.1, r.2.2.1, b.name :: r.2.2.2)
    else chainWalk hash now mfaEnabled totpVerified username actual rest cache db

/-- `manager.py:155-191` packaged over the manager state: the
`if not self.backends` early return followed by the backend loop. -/
def authViaChain (hash : String → String) (now : Nat)
    (mfaEnabled totpVerified : Bool) (username actual : String)
    (st : ManagerState) (cache1 : AuthCache) : AuthResult :=
  if st.backends.isEmpty then
    ⟨false, none, { st with cache := cache1 }, [], false⟩
  else
    let w := chainWalk hash now mfaEnabled totpVerified username actual st.backends cache1 st.mfadb
    ⟨w.1.1, w.1.2, { st with cache := w.2.1, mfadb := w.2.2.1 }, w.2.2.2, false⟩

/-- `RadiusBackendManager.authenticate` (`manager.py:96-191`): empty
credential guard, MFA gate, cache probe, then chain walk. `vt` abstracts
`MFAManager.verify_totp` and `hash` abstracts the cache's SHA-256. -/
def authenticate (vt : String → String → Bool) (hash : String → String)
    (now : Nat) (st : ManagerState) (username password : String) : AuthResult :=
  if username = "" ∨ password = "" then ⟨false, none, st, [], false⟩
  else
    let mfaEnabled := is_mfa_enabled st.mfadb username
    match mfaGate vt st.mfadb username password with
    | none => ⟨false, none, st, [], false⟩
    | some (actual, totpVerified) =>
      match st.cache.get hash now username actual with
      | (some r, cache1) =>
        if !mfaEnabled || totpVerified then
          ⟨r.1, some r.2,
            { st with cache := cache1,
                      mfadb := if mfaEnabled then update_last_used now st.mfadb username
                               else st.mfadb },
            [], true⟩
        else authViaChain hash now mfaEnabled totpVerified username actual st cache1
      | (none, cache1) => authViaChain hash now mfaEnabled totpVerified username actual st cache1

/-- One row of the `radius_backends` table (`config_db.py`). The
type-specific `config_json` payload is irrelevant to chain ordering and is
absorbed into the instantiation function below. -/
structure BackendConfigRow where
  id : Nat
  backendType : String
  name : String
  enabled : Bool
  priority : Int
deriving DecidableEq, Repr

/-- The `ORDER BY priority ASC, id ASC` order of
`RadiusBackendDB.list_backends` (`config_db.py:84`). -/
def rowLE (a b : BackendConfigRow) : Prop :=
  a.priority < b.priority ∨ (a.priority = b.priority ∧ a.id ≤ b.id)

instance : DecidableRel rowLE := fun a b => by
  unfold rowLE; infer_instance

/-- `RadiusBackendDB.list_backends(enabled_only=True)` (`config_db.py:54-95`):
the enabled rows, in ascending `(priority, id)` order. -/
def list_backends_enabled (rows : List BackendConfigRow) : List BackendConfigRow :=
  (rows.filter (·.enabled)).insertionSort rowLE

/-- `RadiusBackendManager._load_backends` (`manager.py:52-88`): read the
enabled rows in priority order and instantiate each one; `instantiate`
abstracts the `BACKEND_CLASSES` lookup together with the per-backend
constructor `try/except` (`none` for an unknown type or a constructor
failure, both of which merely skip the row). -/
def loadBackends (instantiate : BackendConfigRow → Option RadiusBackend)
    (rows : List BackendConfigRow) : List RadiusBackend :=
  (list_backends_enabled rows).filterMap instantiate

/-- `RadiusBackendManager.reload_backends` (`manager.py:90-94`):
rebuild the chain from the store, then clear the cache. -/
def reload_backends (instantiate : BackendConfigRow → Option RadiusBackend)
    (rows : List BackendConfigRow) (st : ManagerState) : ManagerState :=
  { st with backends := loadBackends instantiate rows, cache := st.cache.clear }

/-! ### Association-list lemmas -/

theorem lookupKey_eq_none {β : Type} (l : List (String × β)) (k : String)
    (h : k ∉ l.map Prod.fst) : lookupKey l k = none := by
  induction l with
  | nil => rfl
  | cons p rest ih =>
    obtain ⟨k', w⟩ := p
    simp only [List.map_cons, List.mem_cons] at h
    push_neg at h
    have hne : k' ≠ k := fun hk => h.1 hk.symm
    simp [lookupKey, hne, ih h.2]

theorem lookup_setEntry_self {β : Type} (l : List (String × β)) (k : String) (v : β) :
    lookupKey (setEntry l k v) k = some v := by
  induction l with
  | nil => simp [setEntry, lookupKey]
  | cons p rest ih =>
    obtain ⟨k', w⟩ := p
    by_cases h : k' = k
    · simp [setEntry, h, lookupKey]
    · simp [setEntry, h, lookupKey, ih]

theorem lookup_eraseKey_self {β : Type} (l : List (String × β)) (k : String)
    (hwf : (l.map Prod.fst).Nodup) : lookupKey (eraseKey l k) k = none := by
  induction l with
  | nil => rfl
  | cons p rest ih =>
    obtain ⟨k', w⟩ := p
    simp only [List.map_cons, List.nodup_cons] at hwf
    by_cases h : k' = k
    · subst h
      simpa [eraseKey] using lookupKey_eq_none rest k' hwf.1
    · simp [eraseKey, h, lookupKey, ih hwf.2]

theorem setEntry_append {β : Type} (l : List (String × β)) (k : String) (v : β)
    (h : lookupKey l k = none) : setEntry l k v = l ++ [(k, v)] := by
  induction l with
  | nil => rfl
  | cons p rest ih =>
    obtain ⟨k', w⟩ := p
    by_cases hk : k' = k
    · simp [lookupKey, hk] at h
    · simp only [lookupKey, if_neg hk] at h
      simp [setEntry, hk, ih h]

theorem eraseKey_length {β : Type} (l : List (String × β)) (k : String) (e : β)
    (h : lookupKey l k = some e) : (eraseKey l k).length + 1 = l.length := by
  induction l with
  | nil => simp [lookupKey] at h
  | cons p rest ih =>
    obtain ⟨k', w⟩ := p
    by_cases hk : k' = k
    · simp [eraseKey, hk]
    · simp only [lookupKey, if_neg hk] at h
      simp [eraseKey, hk, ih h]

theorem lookupKey_map_update {β : Type} (l : List (String × β)) (u : String) (g : β → β) :
    lookupKey (l.map fun p => if p.1 = u then (p.1, g p.2) else p) u
      = (lookupKey l u).map g := by
  induction l with
  | nil => rfl
  | cons p rest ih =>
    obtain ⟨k, w⟩ := p
    simp only [List.map_cons]
    by_cases h : k = u
    · have hhead : (if (k, w).1 = u then ((k, w).1, g (k, w).2) else (k, w)) = (k, g w) :=
        if_pos h
      rw [hhead]
      simp [lookupKey, h]
    · have hhead : (if (k, w).1 = u then ((k, w).1, g (k, w).2) else (k, w)) = (k, w) :=
        if_neg h
      rw [hhead]
      simp [lookupKey, h, ih]

theorem lookupKey_of_mem_nodup {β : Type} (l : List (String × β)) (k : String) (e : β)
    (hmem : (k, e) ∈ l) (hwf : (l.map Prod.fst).Nodup) : lookupKey l k = some e := by
  induction l with
  | nil => cases hmem
  | cons p rest ih =>
    obtain ⟨k', w⟩ := p
    simp only [List.map_cons, List.nodup_cons] at hwf
    rcases List.mem_cons.mp hmem with h | h
    · cases h
      simp [lookupKey]
    · have hne : k' ≠ k := by
        intro hk
        subst hk
        exact hwf.1 (List.mem_map.mpr ⟨(k', e), h, rfl⟩)
      simp [lookupKey, hne, ih h hwf.2]

/-! ### The oldest-entry scan -/

theorem oldestAux_spec (rest : List (String × CacheEntry)) :
    ∀ (k : String) (ts : Nat),
      (oldestAux k ts rest = k ∧ ∀ p ∈ rest, ts ≤ p.2.timestamp) ∨
      (∃ e, (oldestAux k ts rest, e) ∈ rest ∧ e.timestamp ≤ ts ∧
        ∀ p ∈ rest, e.timestamp ≤ p.2.timestamp) := by
  induction rest with
  | nil =>
    intro k ts
    left
    exact ⟨rfl, by intro p hp; cases hp⟩
  | cons q rest ih =>
    intro k ts
    obtain ⟨k₁, e₁⟩ := q
    by_cases h : e₁.timestamp < ts
    · rcases ih k₁ e₁.timestamp with ⟨heq, hall⟩ | ⟨e, hmem, hle, hall⟩
      · right
        refine ⟨e₁, ?_, le_of_lt h, ?_⟩
        · simp [oldestAux, h, heq]
        · intro p hp
          rcases List.mem_cons.mp hp with rfl | hp
          · exact le_refl _
          · exact hall p hp
      · right
        refine ⟨e, ?_, le_trans hle (le_of_lt h), ?_⟩
        · simp only [oldestAux, if_pos h]
          exact List.mem_cons_of_mem _ hmem
        · intro p hp
          rcases List.mem_cons.mp hp with rfl | hp
          · exact hle
          · exact hall p hp
    · rcases ih k ts with ⟨heq, hall⟩ | ⟨e, hmem, hle, hall⟩
      · left
        refine ⟨by simp [oldestAux, h, heq], ?_⟩
        intro p hp
        rcases List.mem_cons.mp hp with rfl | hp
        · exact le_of_not_lt h
        · exact hall p hp
      · right
        refine ⟨e, ?_, hle, ?_⟩
        · simp only [oldestAux, if_neg h]
          exact List.mem_cons_of_mem _ hmem
        · intro p hp
          rcases List.mem_cons.mp hp with rfl | hp
          · exact le_trans hle (le_of_not_lt h)
          · exact hall p hp

theorem oldestKey_spec (l : List (String × CacheEntry)) (hne : l ≠ []) :
    ∃ k e, oldestKey l = some k ∧ (k, e) ∈ l ∧
      ∀ p ∈ l, e.timestamp ≤ p.2.timestamp := by
  match l with
  | [] => exact absurd rfl hne
  | (k₀, e₀) :: rest =>
    rcases oldestAux_spec rest k₀ e₀.timestamp with ⟨heq, hall⟩ | ⟨e, hmem, hle, hall⟩
    · refine ⟨k₀, e₀, by simp [oldestKey, heq], List.mem_cons_self _ _, ?_⟩
      intro p hp
      rcases List.mem_cons.mp hp with rfl | hp
      · exact le_refl _
      · exact hall p hp
    · refine ⟨oldestAux k₀ e₀.timestamp rest, e, by simp [oldestKey],
        List.mem_cons_of_mem _ hmem, ?_⟩
      intro p hp
      rcases List.mem_cons.mp hp with rfl | hp
      · exact hle
      · exact hall p hp

/-! ### Cache operation lemmas -/

theorem AuthCache.get_miss (hash : String → String) (now : Nat) (c : AuthCache)
    (u p : String) (h : lookupKey c.cache u = none) :
    c.get hash now u p = (none, { c with misses := c.misses + 1 }) := by
  simp [AuthCache.get, h]

theorem AuthCache.get_hit (hash : String → String) (now : Nat) (c : AuthCache)
    (u p : String) (e : CacheEntry) (hl : lookupKey c.cache u = some e)
    (hfresh : ¬ now - e.timestamp > c.ttl) (hmatch : hash p = e.passwordHash) :
    c.get hash now u p = (some (true, e.attrs), { c with hits := c.hits + 1 }) := by
  simp [AuthCache.get, hl, hfresh, hmatch]

theorem AuthCache.get_expired (hash : String → String) (now : Nat) (c : AuthCache)
    (u p : String) (e : CacheEntry) (hl : lookupKey c.cache u = some e)
    (hexp : now - e.timestamp > c.ttl) :
    c.get hash now u p = (none, { c with cache := eraseKey c.cache u }) := by
  simp [AuthCache.get, hl, hexp]

theorem AuthCache.get_ttl (hash : String → String) (now : Nat) (c : AuthCache)
    (u p : String) :
    ((c.get hash now u p).2).ttl = c.ttl ∧ ((c.get hash now u p).2).maxSize = c.maxSize := by
  unfold AuthCache.get
  cases lookupKey c.cache u with
  | none => exact ⟨rfl, rfl⟩
  | some e =>
    by_cases hexp : now - e.timestamp > c.ttl
    · simp [hexp]
    · by_cases hm : hash p = e.passwordHash
      · simp [hexp, hm]
      · simp [hexp, hm]

theorem AuthCache.set_lookup (hash : String → String) (now : Nat) (c c' : AuthCache)
    (u p : String) (a : Attrs) (h : AuthCache.set hash now c u p a = .ok c') :
    lookupKey c'.cache u = some ⟨hash p, now, a⟩ ∧ c'.ttl = c.ttl ∧
      c'.maxSize = c.maxSize := by
  unfold AuthCache.set at h
  by_cases hfull : c.cache.length ≥ c.maxSize
  · rw [if_pos hfull] at h
    cases holdest : oldestKey c.cache with
    | none =>
      rw [holdest] at h
      cases h
    | some k =>
      rw [holdest] at h
      cases h
      exact ⟨lookup_setEntry_self _ _ _, rfl, rfl⟩
  · rw [if_neg hfull] at h
    cases h
    exact ⟨lookup_setEntry_self _ _ _, rfl, rfl⟩

theorem AuthCache.set_ok_of_pos (hash : String → String) (now : Nat) (c : AuthCache)
    (u p : String) (a : Attrs) (hsize : 0 < c.maxSize) :
    ∃ c', AuthCache.set hash now c u p a = .ok c' := by
  unfold AuthCache.set
  by_cases hfull : c.cache.length ≥ c.maxSize
  · have hne : c.cache ≠ [] :=
      List.length_pos.mp (lt_of_lt_of_le hsize hfull)
    obtain ⟨k, e, hk, _, _⟩ := oldestKey_spec c.cache hne
    rw [if_pos hfull, hk]
    exact ⟨_, rfl⟩
  · rw [if_neg hfull]
    exact ⟨_, rfl⟩

/-! ### Chain-walk lemmas -/

theorem chainWalk_db_nonmfa (hash : String → String) (now : Nat) (tv : Bool)
    (u p : String) (bs : List RadiusBackend) (cache : AuthCache) (db : MfaDb) :
    (chainWalk hash now false tv u p bs cache db).2.2.1 = db := by
  induction bs generalizing cache db with
  | nil => rfl
  | cons b rest ih =>
    by_cases hb : b.enabled = true
    · cases hauth : b.auth u p with
      | ok g t =>
        cases g
        · simp only [chainWalk, if_pos hb, hauth]
          exact ih _ _
        · simp only [chainWalk, if_pos hb, hauth, Bool.false_and]
          cases hset : AuthCache.set hash now cache u p (t.getD []) with
          | ok c' => simp [hset]
          | error e => simp [hset, ih]
      | err =>
        simp only [chainWalk, if_pos hb, hauth]
        exact ih _ _
    · simp only [chainWalk, if_neg hb]
      exact ih _ _

theorem chainWalk_granted_lookup (hash : String → String) (now : Nat) (me tv : Bool)
    (u p : String) (bs : List RadiusBackend) (cache : AuthCache) (db : MfaDb)
    (h : (chainWalk hash now me tv u p bs cache db).1.1 = true) :
    lookupKey (chainWalk hash now me tv u p bs cache db).2.1.cache u
      = some ⟨hash p, now, ((chainWalk hash now me tv u p bs cache db).1.2).getD []⟩ := by
  induction bs generalizing cache db with
  | nil => simp [chainWalk] at h
  | cons b rest ih =>
    by_cases hb : b.enabled = true
    · cases hauth : b.auth u p with
      | ok g t =>
        cases g
        · simp only [chainWalk, if_pos hb, hauth] at h ⊢
          exact ih _ _ h
        · simp only [chainWalk, if_pos hb, hauth] at h ⊢
          cases hset : AuthCache.set hash now cache u p (t.getD []) with
          | ok c' =>
            simp only [hset] at h ⊢
            exact (AuthCache.set_lookup hash now cache c' u p (t.getD []) hset).1
          | error e =>
            simp only [hset] at h ⊢
            exact ih _ _ h
      | err =>
        simp only [chainWalk, if_pos hb, hauth] at h ⊢
        exact ih _ _ h
    · simp only [chainWalk, if_neg hb] at h ⊢
      exact ih _ _ h

theorem chainWalk_ttl_maxSize (hash : String → String) (now : Nat) (me tv : Bool)
    (u p : String) (bs : List RadiusBackend) (cache : AuthCache) (db : MfaDb) :
    (chainWalk hash now me tv u p bs cache db).2.1.ttl = cache.ttl ∧
      (chainWalk hash now me tv u p bs cache db).2.1.maxSize = cache.maxSize := by
  induction bs generalizing cache db with
  | nil => exact ⟨rfl, rfl⟩
  | cons b rest ih =>
    by_cases hb : b.enabled = true
    · cases hauth : b.auth u p with
      | ok g t =>
        cases g
        · simp only [chainWalk, if_pos hb, hauth]
          exact ih _ _
        · simp only [chainWalk, if_pos hb, hauth]
          cases hset : AuthCache.set hash now cache u p (t.getD []) with
          | ok c' =>
            simp only [hset]
            have := AuthCache.set_lookup hash now cache c' u p (t.getD []) hset
            exact ⟨this.2.1, this.2.2⟩
          | error e =>
            simp only [hset]
            exact ih _ _
      | err =>
        simp only [chainWalk, if_pos hb, hauth]
        exact ih _ _
    · simp only [chainWalk, if_neg hb]
      exact ih _ _

theorem chainWalk_granted_enabled (hash : String → String) (now : Nat) (me tv : Bool)
    (u p : String) (bs : List RadiusBackend) (cache : AuthCache) (db : MfaDb)
    (h : (chainWalk hash now me tv u p bs cache db).1.1 = true) :
    ∃ b ∈ bs, b.enabled = true := by
  induction bs generalizing cache db with
  | nil => simp [chainWalk] at h
  | cons b rest ih =>
    by_cases hb : b.enabled = true
    · exact ⟨b, List.mem_cons_self _ _, hb⟩
    · simp only [chainWalk, if_neg hb] at h
      obtain ⟨b', hmem, hben⟩ := ih _ _ h
      exact ⟨b', List.mem_cons_of_mem _ hmem, hben⟩

theorem chainWalk_invoked_ne (hash : String → String) (now : Nat) (me tv : Bool)
    (u p : String) (bs : List RadiusBackend) (cache : AuthCache) (db : MfaDb)
    (h : ∃ b ∈ bs, b.enabled = true) :
    (chainWalk hash now me tv u p bs cache db).2.2.2 ≠ [] := by
  induction bs generalizing cache db with
  | nil =>
    obtain ⟨b, hmem, _⟩ := h
    cases hmem
  | cons b rest ih =>
    by_cases hb : b.enabled = true
    · cases hauth : b.auth u p with
      | ok g t =>
        cases g
        · simp [chainWalk, if_pos hb, hauth]
        · simp only [chainWalk, if_pos hb, hauth]
          cases hset : AuthCache.set hash now cache u p (t.getD []) with
          | ok c' => simp [hset]
          | error e => simp [hset]
      | err => simp [chainWalk, if_pos hb, hauth]
    · simp only [chainWalk, if_neg hb]
      obtain ⟨b', hmem, hben⟩ := h
      rcases List.mem_cons.mp hmem with rfl | hmem'
      · exact absurd hben hb
      · exact ih _ _ ⟨b', hmem', hben⟩

theorem chainWalk_all_err (hash : String → String) (now : Nat) (me tv : Bool)
    (u p : String) (bs : List RadiusBackend) (cache : AuthCache) (db : MfaDb)
    (h : ∀ b ∈ bs, b.enabled = true → b.auth u p = .err) :
    (chainWalk hash now me tv u p bs cache db).1 = (false, none) := by
  induction bs generalizing cache db with
  | nil => rfl
  | cons b rest ih =>
    by_cases hb : b.enabled = true
    · have hauth := h b (List.mem_cons_self _ _) hb
      simp only [chainWalk, if_pos hb, hauth]
      exact ih _ _ (fun b' hm => h b' (List.mem_cons_of_mem _ hm))
    · simp only [chainWalk, if_neg hb]
      exact ih _ _ (fun b' hm => h b' (List.mem_cons_of_mem _ hm))

theorem chainWalk_first_success (hash : String → String) (now : Nat) (u p : String)
    (bs₁ : List RadiusBackend) :
    ∀ (bs₂ : List RadiusBackend) (b : RadiusBackend) (a : Attrs)
      (cache : AuthCache) (db : MfaDb),
    0 < cache.maxSize →
    (∀ b' ∈ bs₁, b'.enabled = true →
      b'.auth u p = .err ∨ ∃ t, b'.auth u p = .ok false t) →
    b.enabled = true → b.auth u p = .ok true (some a) →
    ∃ cache', chainWalk hash now false false u p (bs₁ ++ b :: bs₂) cache db
      = ((true, some a), cache', db,
         (bs₁.filter (fun x => x.enabled)).map (fun x => x.name) ++ [b.name]) := by
  induction bs₁ with
  | nil =>
    intro bs₂ b a cache db hsize hfail hb hg
    obtain ⟨c', hset⟩ := AuthCache.set_ok_of_pos hash now cache u p a hsize
    refine ⟨c', ?_⟩
    simp [chainWalk, if_pos hb, hg, hset]
  | cons b' bs₁ ih =>
    intro bs₂ b a cache db hsize hfail hb hg
    have hrest : ∀ x ∈ bs₁, x.enabled = true →
        x.auth u p = .err ∨ ∃ t, x.auth u p = .ok false t :=
      fun x hx => hfail x (List.mem_cons_of_mem _ hx)
    by_cases hb' : b'.enabled = true
    · rcases hfail b' (List.mem_cons_self _ _) hb' with herr | ⟨t, hfalse⟩
      · obtain ⟨c', hrec⟩ := ih bs₂ b a cache db hsize hrest hb hg
        refine ⟨c', ?_⟩
        simp [chainWalk, if_pos hb', herr, hrec, List.filter_cons, hb']
      · obtain ⟨c', hrec⟩ := ih bs₂ b a cache db hsize hrest hb hg
        refine ⟨c', ?_⟩
        simp [chainWalk, if_pos hb', hfalse, hrec, List.filter_cons, hb']
    · obtain ⟨c', hrec⟩ := ih bs₂ b a cache db hsize hrest hb hg
      refine ⟨c', ?_⟩
      simp [chainWalk, if_neg hb', hrec, List.filter_cons, hb']

/-! ### Configuration-store ordering -/

instance : IsTotal BackendConfigRow rowLE := by
  constructor
  intro a b
  rcases lt_trichotomy a.priority b.priority with h | h | h
  · exact Or.inl (Or.inl h)
  · rcases Nat.le_total a.id b.id with hid | hid
    · exact Or.inl (Or.inr ⟨h, hid⟩)
    · exact Or.inr (Or.inr ⟨h.symm, hid⟩)
  · exact Or.inr (Or.inl h)

instance : IsTrans BackendConfigRow rowLE := by
  constructor
  intro a b c hab hbc
  rcases hab with h₁ | ⟨h₁, h₁'⟩
  · rcases hbc with h₂ | ⟨h₂, _⟩
    · exact Or.inl (lt_trans h₁ h₂)
    · exact Or.inl (h₂ ▸ h₁)
  · rcases hbc with h₂ | ⟨h₂, h₂'⟩
    · exact Or.inl (h₁ ▸ h₂)
    · exact Or.inr ⟨h₁.trans h₂, le_trans h₁' h₂'⟩

theorem list_backends_enabled_sorted (rows : List BackendConfigRow) :
    List.Sorted rowLE (list_backends_enabled rows) :=
  List.sorted_insertionSort rowLE _

theorem list_backends_enabled_perm (rows : List BackendConfigRow) :
    (list_backends_enabled rows).Perm (rows.filter (·.enabled)) :=
  List.perm_insertionSort rowLE _

theorem loadBackends_mem (instantiate : BackendConfigRow → Option RadiusBackend)
    (rows : List BackendConfigRow) (b : RadiusBackend)
    (h : b ∈ loadBackends instantiate rows) :
    ∃ row ∈ rows, row.enabled = true ∧ instantiate row = some b := by
  obtain ⟨row, hmem, hinst⟩ := List.mem_filterMap.mp h
  have hmem' : row ∈ rows.filter (·.enabled) :=
    (list_backends_enabled_perm rows).mem_iff.mp hmem
  have := List.mem_filter.mp hmem'
  exact ⟨row, this.1, by simpa using this.2, hinst⟩

/-! ### `authenticate` unfolding lemmas -/

theorem authenticate_nonmfa (vt : String → String → Bool) (hash : String → String)
    (now : Nat) (st : ManagerState) (u s : String)
    (hu : u ≠ "") (hs : s ≠ "") (hmfa : is_mfa_enabled st.mfadb u = false) :
    authenticate vt hash now st u s =
      match st.cache.get hash now u s with
      | (some r, cache1) => ⟨r.1, some r.2, { st with cache := cache1 }, [], true⟩
      | (none, cache1) => authViaChain hash now false false u s st cache1 := by
  have hgate : mfaGate vt st.mfadb u s = some (s, false) := by
    simp [mfaGate, hmfa]
  rcases hget : st.cache.get hash now u s with ⟨cres, cache1⟩
  cases cres with
  | none =>
    simp [authenticate, hu, hs, hgate, hget, hmfa]
  | some r =>
    simp [authenticate, hu, hs, hgate, hget, hmfa]

theorem authenticate_gate_reject (vt : String → String → Bool) (hash : String → String)
    (now : Nat) (st : ManagerState) (u s : String)
    (hgate : mfaGate vt st.mfadb u s = none) :
    authenticate vt hash now st u s = ⟨false, none, st, [], false⟩ := by
  by_cases hempty : u = "" ∨ s = ""
  · simp [authenticate, hempty]
  · simp [authenticate, hempty, hgate]

theorem lookup_eraseKey_other {β : Type} (l : List (String × β)) (k u : String)
    (h : lookupKey l u = none) : lookupKey (eraseKey l k) u = none := by
  induction l with
  | nil => rfl
  | cons p rest ih =>
    obtain ⟨k', w⟩ := p
    by_cases hku : k' = u
    · simp [lookupKey, hku] at h
    · simp only [lookupKey, if_neg hku] at h
      by_cases hkk : k' = k
      · simpa [eraseKey, hkk] using h
      · simp [eraseKey, hkk, lookupKey, hku, ih h]

theorem authenticate_miss (vt : String → String → Bool) (hash : String → String)
    (now : Nat) (st : ManagerState) (u s actual : String) (tv : Bool)
    (hempty : ¬ (u = "" ∨ s = ""))
    (hgate : mfaGate vt st.mfadb u s = some (actual, tv))
    (hmiss : lookupKey st.cache.cache u = none) :
    authenticate vt hash now st u s
      = authViaChain hash now (is_mfa_enabled st.mfadb u) tv u actual st
          { st.cache with misses := st.cache.misses + 1 } := by
  have hget := AuthCache.get_miss hash now st.cache u actual hmiss
  simp [authenticate, hempty, hgate, hget]

theorem authViaChain_all_err (hash : String → String) (now : Nat) (me tv : Bool)
    (u actual : String) (st : ManagerState) (cache1 : AuthCache)
    (hall : ∀ b ∈ st.backends, b.enabled = true → b.auth u actual = .err) :
    (authViaChain hash now me tv u actual st cache1).granted = false ∧
    (authViaChain hash now me tv u actual st cache1).attrs = none := by
  by_cases hbe : st.backends.isEmpty = true
  · simp [authViaChain, hbe]
  · have h := chainWalk_all_err hash now me tv u actual st.backends cache1 st.mfadb hall
    simp [authViaChain, hbe, h]

theorem authViaChain_fromCache (hash : String → String) (now : Nat) (me tv : Bool)
    (u actual : String) (st : ManagerState) (cache1 : AuthCache) :
    (authViaChain hash now me tv u actual st cache1).fromCache = false := by
  by_cases hbe : st.backends.isEmpty = true
  · simp [authViaChain, hbe]
  · simp [authViaChain, hbe]

/-! ## The claims -/

/-- C10: if the username or the password is the empty string, `authenticate`
returns `granted=false` with no attributes, invokes no backend, and leaves
the entire manager state (cache and MFA enrollment store included)
untouched. -/
theorem c10_empty_credentials_noop (vt : String → String → Bool)
    (hash : String → String) (now : Nat) (st : ManagerState)
    (username password : String) (h : username = "" ∨ password = "") :
    authenticate vt hash now st username password = ⟨false, none, st, [], false⟩ := by
  simp [authenticate, h]

/-- C10 witness: the empty username on a concrete manager state. -/
theorem c10_witness :
    (("" : String) = "" ∨ ("pw" : String) = "") ∧
    authenticate (fun _ _ => true) (fun x => x) 0
        ⟨[], ⟨300, 1000, [], 0, 0⟩, []⟩ "" "pw"
      = ⟨false, none, ⟨[], ⟨300, 1000, [], 0, 0⟩, []⟩, [], false⟩ :=
  ⟨Or.inl rfl,
   c10_empty_credentials_noop (fun _ _ => true) (fun x => x) 0
     ⟨[], ⟨300, 1000, [], 0, 0⟩, []⟩ "" "pw" (Or.inl rfl)⟩

/-- C2: for an identity whose MFA enrollment is enabled, a credential of
length at most 6 is rejected outright — `granted=false`, no attributes, no
backend invoked, and the state untouched. -/
theorem c2_short_credential_rejected (vt : String → String → Bool)
    (hash : String → String) (now : Nat) (st : ManagerState)
    (username password : String)
    (hmfa : is_mfa_enabled st.mfadb username = true)
    (hlen : password.length ≤ 6) :
    authenticate vt hash now st username password = ⟨false, none, st, [], false⟩ := by
  by_cases hempty : username = "" ∨ password = ""
  · simp [authenticate, hempty]
  · have hlt : ¬ 6 < password.length := Nat.not_lt.mpr hlen
    have hgate : mfaGate vt st.mfadb username password = none := by
      simp [mfaGate, hmfa, hlt]
    exact authenticate_gate_reject vt hash now st username password hgate

/-- C2 witness: an enrolled identity presenting a 6-character credential. -/
theorem c2_witness :
    is_mfa_enabled [("alice", ⟨true, some "S", [], none⟩)] "alice" = true ∧
    ("123456" : String).length ≤ 6 ∧
    authenticate (fun _ _ => true) (fun x => x) 0
        ⟨[⟨"b", true, fun _ _ => .ok true (some [])⟩, ⟨"c", true, fun _ _ => .err⟩],
         ⟨300, 1000, [], 0, 0⟩, [("alice", ⟨true, some "S", [], none⟩)]⟩
        "alice" "123456"
      = ⟨false, none,
         ⟨[⟨"b", true, fun _ _ => .ok true (some [])⟩, ⟨"c", true, fun _ _ => .err⟩],
          ⟨300, 1000, [], 0, 0⟩, [("alice", ⟨true, some "S", [], none⟩)]⟩,
         [], false⟩ :=
  ⟨by decide, by decide,
   c2_short_credential_rejected (fun _ _ => true) (fun x => x) 0
     ⟨[⟨"b", true, fun _ _ => .ok true (some [])⟩, ⟨"c", true, fun _ _ => .err⟩],
      ⟨300, 1000, [], 0, 0⟩, [("alice", ⟨true, some "S", [], none⟩)]⟩
     "alice" "123456" (by decide) (by decide)⟩

/-- C1 (amended): when the trailing six characters of an MFA-enrolled
identity's credential fail time-based verification, the request is rejected
outright — there is no backup-code fallback in the authentication flow: no
backend is invoked and the enrollment store (backup-code set included) is
left untouched. -/
theorem c1_totp_failure_rejects_without_backup_fallback
    (vt : String → String → Bool) (hash : String → String) (now : Nat)
    (st : ManagerState) (username password : String) (s : MFASettings)
    (secret : String)
    (hlook : lookupKey st.mfadb username = some s)
    (hen : s.mfaEnabled = true)
    (hlen : 6 < password.length)
    (hsec : s.totpSecret = some secret) (hsecne : secret ≠ "")
    (hvt : vt secret (password.drop (password.length - 6)) = false) :
    authenticate vt hash now st username password = ⟨false, none, st, [], false⟩ := by
  have hmfa : is_mfa_enabled st.mfadb username = true := by
    simp [is_mfa_enabled, hlook, hen]
  have hgate : mfaGate vt st.mfadb username password = none := by
    simp [mfaGate, hmfa, hlen, hlook, hsec, hsecne, hvt]
  exact authenticate_gate_reject vt hash now st username password hgate

/-- C1 counterexample: an MFA-enrolled identity, a credential strictly
longer than 6 characters whose trailing six characters fail time-based
verification but are a valid (consumable) backup code, and an enabled
backend that accepts the base secret — yet the authentication flow rejects
the request and invokes nothing, so no backup-code fallback occurs. -/
theorem c1_counterexample :
    is_mfa_enabled [("u", ⟨true, some "SECRET", ["ABC123"], none⟩)] "u" = true ∧
    6 < ("passABC123" : String).length ∧
    (verify_and_consume_backup_code (fun x => x) 0
       [("u", ⟨true, some "SECRET", ["ABC123"], none⟩)] "u" "ABC123").1 = true ∧
    (authenticate (fun _ _ => false) (fun x => x) 0
       ⟨[⟨"b", true, fun _ _ => .ok true (some [("Reply-Message", "ok")])⟩],
        ⟨300, 1000, [], 0, 0⟩,
        [("u", ⟨true, some "SECRET", ["ABC123"], none⟩)]⟩
       "u" "passABC123").granted = false ∧
    (authenticate (fun _ _ => false) (fun x => x) 0
       ⟨[⟨"b", true, fun _ _ => .ok true (some [("Reply-Message", "ok")])⟩],
        ⟨300, 1000, [], 0, 0⟩,
        [("u", ⟨true, some "SECRET", ["ABC123"], none⟩)]⟩
       "u" "passABC123").invoked = [] := by
  refine ⟨by decide, by decide, by decide, ?_, ?_⟩
  · have h := c1_totp_failure_rejects_without_backup_fallback
      (fun _ _ => false) (fun x => x) 0
      ⟨[⟨"b", true, fun _ _ => .ok true (some [("Reply-Message", "ok")])⟩],
       ⟨300, 1000, [], 0, 0⟩,
       [("u", ⟨true, some "SECRET", ["ABC123"], none⟩)]⟩
      "u" "passABC123" ⟨true, some "SECRET", ["ABC123"], none⟩ "SECRET"
      (by decide) rfl (by decide) rfl (by decide) rfl
    rw [h]
  · have h := c1_totp_failure_rejects_without_backup_fallback
      (fun _ _ => false) (fun x => x) 0
      ⟨[⟨"b", true, fun _ _ => .ok true (some [("Reply-Message", "ok")])⟩],
       ⟨300, 1000, [], 0, 0⟩,
       [("u", ⟨true, some "SECRET", ["ABC123"], none⟩)]⟩
      "u" "passABC123" ⟨true, some "SECRET", ["ABC123"], none⟩ "SECRET"
      (by decide) rfl (by decide) rfl (by decide) rfl
    rw [h]

/-- C1 (amended) witness: concrete instance of the no-fallback theorem. -/
theorem c1_witness :
    authenticate (fun _ _ => false) (fun x => x) 0
        ⟨[⟨"b", true, fun _ _ => .ok true (some [])⟩],
         ⟨300, 1000, [], 0, 0⟩,
         [("u", ⟨true, some "SECRET", ["XYZ789"], none⟩)]⟩
        "u" "passXYZ789"
      = ⟨false, none,
         ⟨[⟨"b", true, fun _ _ => .ok true (some [])⟩],
          ⟨300, 1000, [], 0, 0⟩,
          [("u", ⟨true, some "SECRET", ["XYZ789"], none⟩)]⟩,
         [], false⟩ :=
  c1_totp_failure_rejects_without_backup_fallback (fun _ _ => false) (fun x => x) 0
    ⟨[⟨"b", true, fun _ _ => .ok true (some [])⟩],
     ⟨300, 1000, [], 0, 0⟩,
     [("u", ⟨true, some "SECRET", ["XYZ789"], none⟩)]⟩
    "u" "passXYZ789" ⟨true, some "SECRET", ["XYZ789"], none⟩ "SECRET"
    (by decide) rfl (by decide) rfl (by decide) rfl

/-- C4: a live (non-expired) cache entry probed with a secret whose digest
differs from the stored digest yields `none` (never the old attribute bag),
evicts the entry, and a following `get` for the same identity also yields
`none`. -/
theorem c4_digest_mismatch_evicts (hash : String → String) (now now₂ : Nat)
    (c : AuthCache) (u s s₂ : String) (e : CacheEntry)
    (hwf : (c.cache.map Prod.fst).Nodup)
    (hl : lookupKey c.cache u = some e)
    (hlive : ¬ now - e.timestamp > c.ttl)
    (hmm : hash s ≠ e.passwordHash) :
    (c.get hash now u s).1 = none ∧
    lookupKey ((c.get hash now u s).2).cache u = none ∧
    (((c.get hash now u s).2).get hash now₂ u s₂).1 = none := by
  have hget : c.get hash now u s
      = (none, { c with cache := eraseKey c.cache u, misses := c.misses + 1 }) := by
    simp [AuthCache.get, hl, hlive, hmm]
  have herase : lookupKey (eraseKey c.cache u) u = none := lookup_eraseKey_self _ _ hwf
  refine ⟨by simp [hget], by simpa [hget] using herase, ?_⟩
  rw [hget]
  rw [AuthCache.get_miss hash now₂ _ u s₂ herase]

/-- C4 witness: a one-entry cache probed with the wrong secret. -/
theorem c4_witness :
    ((([("u", ⟨"h1", 0, [("a", "1")]⟩)] : List (String × CacheEntry)).map Prod.fst).Nodup) ∧
    ((⟨300, 10, [("u", ⟨"h1", 0, [("a", "1")]⟩)], 0, 0⟩ : AuthCache).get
        (fun x => x) 5 "u" "wrong").1 = none ∧
      lookupKey (((⟨300, 10, [("u", ⟨"h1", 0, [("a", "1")]⟩)], 0, 0⟩ : AuthCache).get
        (fun x => x) 5 "u" "wrong").2).cache "u" = none ∧
      ((((⟨300, 10, [("u", ⟨"h1", 0, [("a", "1")]⟩)], 0, 0⟩ : AuthCache).get
        (fun x => x) 5 "u" "wrong").2).get (fun x => x) 6 "u" "wrong").1 = none :=
  ⟨by decide,
   c4_digest_mismatch_evicts (fun x => x) 5 6
     ⟨300, 10, [("u", ⟨"h1", 0, [("a", "1")]⟩)], 0, 0⟩ "u" "wrong" "wrong"
     ⟨"h1", 0, [("a", "1")]⟩ (by decide) (by decide) (by decide) (by decide)⟩

/-- C6: when every enabled adapter raises on every input, `authenticate`
(on a request not answered by a pre-existing cache entry) returns a clean
`granted=false` with no attributes — adapter failures never propagate. -/
theorem c6_all_unavailable_clean_reject (vt : String → String → Bool)
    (hash : String → String) (now : Nat) (st : ManagerState)
    (username password : String)
    (hmiss : lookupKey st.cache.cache username = none)
    (hall : ∀ b ∈ st.backends, b.enabled = true → ∀ x y, b.auth x y = .err) :
    (authenticate vt hash now st username password).granted = false ∧
    (authenticate vt hash now st username password).attrs = none := by
  by_cases hempty : username = "" ∨ password = ""
  · simp [authenticate, hempty]
  · cases hgate : mfaGate vt st.mfadb username password with
    | none =>
      rw [authenticate_gate_reject vt hash now st username password hgate]
      exact ⟨rfl, rfl⟩
    | some pr =>
      obtain ⟨actual, tv⟩ := pr
      rw [authenticate_miss vt hash now st username password actual tv hempty hgate hmiss]
      exact authViaChain_all_err hash now _ tv username actual st _
        (fun b hb he => hall b hb he username actual)

/-- C6 witness: two enabled adapters that always raise, empty cache. -/
theorem c6_witness :
    lookupKey (⟨300, 1000, [], 0, 0⟩ : AuthCache).cache "bob" = none ∧
    ((authenticate (fun _ _ => true) (fun x => x) 0
        ⟨[⟨"b1", true, fun _ _ => .err⟩, ⟨"b2", true, fun _ _ => .err⟩],
         ⟨300, 1000, [], 0, 0⟩, []⟩ "bob" "pw").granted = false ∧
      (authenticate (fun _ _ => true) (fun x => x) 0
        ⟨[⟨"b1", true, fun _ _ => .err⟩, ⟨"b2", true, fun _ _ => .err⟩],
         ⟨300, 1000, [], 0, 0⟩, []⟩ "bob" "pw").attrs = none) :=
  ⟨rfl,
   c6_all_unavailable_clean_reject (fun _ _ => true) (fun x => x) 0
     ⟨[⟨"b1", true, fun _ _ => .err⟩, ⟨"b2", true, fun _ _ => .err⟩],
      ⟨300, 1000, [], 0, 0⟩, []⟩ "bob" "pw" rfl
     (by
       intro b hb he x y
       simp only [List.mem_cons, List.mem_singleton] at hb
       rcases hb with rfl | rfl | h
       · rfl
       · rfl
       · cases h)⟩

/-- C8 counterexample: with `max_size = 0` the cache "already holds
`max_size` entries" while empty, and `set` for a new identity raises
`ValueError` out of `min()` over no entries — nothing is removed and
nothing is inserted. -/
theorem c8_counterexample :
    (⟨0, 0, [], 0, 0⟩ : AuthCache).cache.length = (⟨0, 0, [], 0, 0⟩ : AuthCache).maxSize ∧
    lookupKey (⟨0, 0, [], 0, 0⟩ : AuthCache).cache "u" = none ∧
    AuthCache.set (fun x => x) 7 ⟨0, 0, [], 0, 0⟩ "u" "p" [] = .error () :=
  ⟨rfl, rfl, rfl⟩

/-- C8 (amended): when the cache holds `max_size ≥ 1` entries and `set` is
called for a new identity, exactly one existing entry is removed before the
insertion — an entry whose insertion timestamp is minimal among all stored
entries (the first such in dictionary order) — and every other entry is
kept unchanged, with the new identity appended. -/
theorem c8_capacity_evicts_oldest (hash : String → String) (now : Nat)
    (c : AuthCache) (u p : String) (a : Attrs)
    (hwf : (c.cache.map Prod.fst).Nodup)
    (hfull : c.cache.length = c.maxSize)
    (hnew : lookupKey c.cache u = none)
    (hpos : 0 < c.maxSize) :
    ∃ k e, lookupKey c.cache k = some e ∧
      (∀ q ∈ c.cache, e.timestamp ≤ q.2.timestamp) ∧
      (eraseKey c.cache k).length + 1 = c.cache.length ∧
      AuthCache.set hash now c u p a
        = .ok { c with cache := eraseKey c.cache k ++ [(u, ⟨hash p, now, a⟩)] } := by
  have hne : c.cache ≠ [] := List.length_pos.mp (hfull ▸ hpos)
  obtain ⟨k, e, hok, hmem, hall⟩ := oldestKey_spec c.cache hne
  have hlk : lookupKey c.cache k = some e := lookupKey_of_mem_nodup _ _ _ hmem hwf
  refine ⟨k, e, hlk, hall, eraseKey_length _ _ _ hlk, ?_⟩
  have hge : c.cache.length ≥ c.maxSize := le_of_eq hfull.symm
  have hnone : lookupKey (eraseKey c.cache k) u = none :=
    lookup_eraseKey_other _ _ _ hnew
  unfold AuthCache.set
  rw [if_pos hge, hok]
  simp [setEntry_append _ _ _ hnone]

/-- C8 (amended) witness: a full two-entry cache; the older entry
(timestamp 3) is evicted and the new identity appended. -/
theorem c8_witness :
    ∃ k e,
      lookupKey (⟨300, 2, [("a", ⟨"h", 5, []⟩), ("b", ⟨"h", 3, []⟩)], 0, 0⟩ :
        AuthCache).cache k = some e ∧
      (∀ q ∈ (⟨300, 2, [("a", ⟨"h", 5, []⟩), ("b", ⟨"h", 3, []⟩)], 0, 0⟩ :
        AuthCache).cache, e.timestamp ≤ q.2.timestamp) ∧
      (eraseKey (⟨300, 2, [("a", ⟨"h", 5, []⟩), ("b", ⟨"h", 3, []⟩)], 0, 0⟩ :
        AuthCache).cache k).length + 1
        = (⟨300, 2, [("a", ⟨"h", 5, []⟩), ("b", ⟨"h", 3, []⟩)], 0, 0⟩ :
        AuthCache).cache.length ∧
      AuthCache.set (fun x => x) 9
          ⟨300, 2, [("a", ⟨"h", 5, []⟩), ("b", ⟨"h", 3, []⟩)], 0, 0⟩ "c" "pw" []
        = .ok { (⟨300, 2, [("a", ⟨"h", 5, []⟩), ("b", ⟨"h", 3, []⟩)], 0, 0⟩ :
            AuthCache) with
            cache := eraseKey [("a", ⟨"h", 5, []⟩), ("b", ⟨"h", 3, []⟩)] k
              ++ [("c", ⟨"pw", 9, []⟩)] } :=
  c8_capacity_evicts_oldest (fun x => x) 9
    ⟨300, 2, [("a", ⟨"h", 5, []⟩), ("b", ⟨"h", 3, []⟩)], 0, 0⟩ "c" "pw" []
    (by decide) (by decide) (by decide) (by decide)

/-- C9: for an enrolled identity whose stored set contains the code's
digest (exactly once, as befits a set), consuming the backup code succeeds,
removes the digest from the stored set, and a second call with the same
code fails. -/
theorem c9_backup_code_single_use (hashBC : String → String) (t₁ t₂ : Nat)
    (db : MfaDb) (u code : String) (s : MFASettings)
    (hl : lookupKey db u = some s)
    (hcount : s.backupCodes.count (hashBC (pyUpper code)) = 1) :
    (verify_and_consume_backup_code hashBC t₁ db u code).1 = true ∧
    (∀ s', lookupKey (verify_and_consume_backup_code hashBC t₁ db u code).2 u = some s' →
       hashBC (pyUpper code) ∉ s'.backupCodes) ∧
    (verify_and_consume_backup_code hashBC t₂
       (verify_and_consume_backup_code hashBC t₁ db u code).2 u code).1 = false := by
  have hmem : hashBC (pyUpper code) ∈ s.backupCodes := by
    have : 0 < s.backupCodes.count (hashBC (pyUpper code)) := by omega
    exact List.count_pos_iff.mp this
  have hverify : verify_backup_code hashBC code s.backupCodes
      = (true, some (hashBC (pyUpper code))) := by
    simp [verify_backup_code, hmem]
  have hafter : hashBC (pyUpper code) ∉ s.backupCodes.erase (hashBC (pyUpper code)) := by
    have hz : (s.backupCodes.erase (hashBC (pyUpper code))).count (hashBC (pyUpper code))
        = 0 := by
      rw [List.count_erase_self, hcount]
    intro hmem'
    have := List.count_pos_iff.mpr hmem'
    omega
  have hfirst : verify_and_consume_backup_code hashBC t₁ db u code
      = (true, db.map fun p =>
          if p.1 = u then
            (p.1, { p.2 with
              backupCodes := s.backupCodes.erase (hashBC (pyUpper code)),
              lastUsed := some t₁ })
          else p) := by
    simp [verify_and_consume_backup_code, hl, hverify]
  have hlook₂ : lookupKey (verify_and_consume_backup_code hashBC t₁ db u code).2 u
      = some { s with
          backupCodes := s.backupCodes.erase (hashBC (pyUpper code)),
          lastUsed := some t₁ } := by
    rw [hfirst]
    have := lookupKey_map_update db u (fun x =>
      { x with backupCodes := s.backupCodes.erase (hashBC (pyUpper code)),
               lastUsed := some t₁ })
    simpa [hl] using this
  refine ⟨by rw [hfirst], ?_, ?_⟩
  · intro s' hs'
    rw [hlook₂] at hs'
    cases hs'
    exact hafter
  · rw [show (verify_and_consume_backup_code hashBC t₁ db u code)
        = ((verify_and_consume_backup_code hashBC t₁ db u code).1,
           (verify_and_consume_backup_code hashBC t₁ db u code).2) from rfl] at hlook₂
    generalize (verify_and_consume_backup_code hashBC t₁ db u code).2 = db₂ at hlook₂
    simp [verify_and_consume_backup_code, hlook₂, verify_backup_code, hafter]

/-- C9 witness: one enrolled user with a single backup-code digest,
consumed once (success) and replayed (failure). -/
theorem c9_witness :
    lookupKey [("u", (⟨true, some "S", ["C1"], none⟩ : MFASettings))] "u"
      = some ⟨true, some "S", ["C1"], none⟩ ∧
    ((⟨true, some "S", ["C1"], none⟩ : MFASettings)).backupCodes.count
      ((fun x => x) (pyUpper "c1")) = 1 ∧
    ((verify_and_consume_backup_code (fun x => x) 4
        [("u", ⟨true, some "S", ["C1"], none⟩)] "u" "c1").1 = true ∧
      (∀ s', lookupKey (verify_and_consume_backup_code (fun x => x) 4
          [("u", ⟨true, some "S", ["C1"], none⟩)] "u" "c1").2 "u" = some s' →
        (fun x => x) (pyUpper "c1") ∉ s'.backupCodes) ∧
      (verify_and_consume_backup_code (fun x => x) 8
        (verify_and_consume_backup_code (fun x => x) 4
          [("u", ⟨true, some "S", ["C1"], none⟩)] "u" "c1").2 "u" "c1").1 = false) :=
  ⟨by decide, by decide,
   c9_backup_code_single_use (fun x => x) 4 8
     [("u", ⟨true, some "S", ["C1"], none⟩)] "u" "c1"
     ⟨true, some "S", ["C1"], none⟩ (by decide) (by decide)⟩

/-- C7: `reload()` rebuilds the chain from the configuration store using
only enabled rows and clears the cache; any `(identity, secret)` that hit
the cache before the reload is no longer answered from the cache — the
first post-reload `authenticate` goes back to the adapter chain. -/
theorem c7_reload_rebuilds_and_invalidates
    (instantiate : BackendConfigRow → Option RadiusBackend)
    (rows : List BackendConfigRow) (vt : String → String → Bool)
    (hash : String → String) (t t' : Nat) (st : ManagerState)
    (u s : String) (r : Bool × Attrs)
    (hhit : (st.cache.get hash t u s).1 = some r) :
    (reload_backends instantiate rows st).cache.cache = [] ∧
    (reload_backends instantiate rows st).backends = loadBackends instantiate rows ∧
    (∀ b ∈ (reload_backends instantiate rows st).backends,
       ∃ row ∈ rows, row.enabled = true ∧ instantiate row = some b) ∧
    (authenticate vt hash t' (reload_backends instantiate rows st) u s).fromCache = false ∧
    (is_mfa_enabled st.mfadb u = false → u ≠ "" → s ≠ "" →
      (∃ b ∈ loadBackends instantiate rows, b.enabled = true) →
      (authenticate vt hash t' (reload_backends instantiate rows st) u s).invoked ≠ []) := by
  refine ⟨rfl, rfl, fun b hb => loadBackends_mem instantiate rows b hb, ?_, ?_⟩
  · by_cases hempty : u = "" ∨ s = ""
    · simp [authenticate, hempty]
    · cases hgate : mfaGate vt (reload_backends instantiate rows st).mfadb u s with
      | none =>
        rw [authenticate_gate_reject vt hash t' _ u s hgate]
      | some pr =>
        obtain ⟨actual, tv⟩ := pr
        rw [authenticate_miss vt hash t' _ u s actual tv hempty hgate rfl]
        exact authViaChain_fromCache hash t' _ tv u actual _ _
  · intro hmfa hu hs hexists
    obtain ⟨b, hbmem, hben⟩ := hexists
    rw [authenticate_nonmfa vt hash t' (reload_backends instantiate rows st) u s hu hs
      (show is_mfa_enabled (reload_backends instantiate rows st).mfadb u = false from hmfa)]
    rw [AuthCache.get_miss hash t' (reload_backends instantiate rows st).cache u s rfl]
    have hbe : (reload_backends instantiate rows st).backends.isEmpty = false := by
      cases hlb : (reload_backends instantiate rows st).backends with
      | nil =>
        rw [show (reload_backends instantiate rows st).backends
            = loadBackends instantiate rows from rfl] at hlb
        rw [hlb] at hbmem
        cases hbmem
      | cons x xs => rfl
    simp only [authViaChain, hbe, Bool.false_eq_true, if_false]
    exact chainWalk_invoked_ne hash t' false false u s _ _ _ ⟨b, hbmem, hben⟩

/-- C7 witness: a manager with a live cache hit for `("u", "pw")`; after
reload the cache is empty, the chain is the one enabled row's adapter, and
the post-reload call walks the chain. -/
theorem c7_witness :
    ((reload_backends (fun _ => some ⟨"fb", true, fun _ _ => .ok false none⟩)
        [⟨1, "file", "f", true, 10⟩]
        ⟨[], ⟨300, 10, [("u", ⟨"pw", 0, [("a", "1")]⟩)], 0, 0⟩, []⟩).cache.cache = [] ∧
      (reload_backends (fun _ => some ⟨"fb", true, fun _ _ => .ok false none⟩)
        [⟨1, "file", "f", true, 10⟩]
        ⟨[], ⟨300, 10, [("u", ⟨"pw", 0, [("a", "1")]⟩)], 0, 0⟩, []⟩).backends
        = loadBackends (fun _ => some ⟨"fb", true, fun _ _ => .ok false none⟩)
            [⟨1, "file", "f", true, 10⟩] ∧
      (∀ b ∈ (reload_backends (fun _ => some ⟨"fb", true, fun _ _ => .ok false none⟩)
          [⟨1, "file", "f", true, 10⟩]
          ⟨[], ⟨300, 10, [("u", ⟨"pw", 0, [("a", "1")]⟩)], 0, 0⟩, []⟩).backends,
        ∃ row ∈ [(⟨1, "file", "f", true, 10⟩ : BackendConfigRow)], row.enabled = true ∧
          (fun _ => some (⟨"fb", true, fun _ _ => .ok false none⟩ : RadiusBackend)) row
            = some b) ∧
      (authenticate (fun _ _ => true) (fun x => x) 100
        (reload_backends (fun _ => some ⟨"fb", true, fun _ _ => .ok false none⟩)
          [⟨1, "file", "f", true, 10⟩]
          ⟨[], ⟨300, 10, [("u", ⟨"pw", 0, [("a", "1")]⟩)], 0, 0⟩, []⟩)
        "u" "pw").fromCache = false ∧
      (is_mfa_enabled ([] : MfaDb) "u" = false → ("u" : String) ≠ "" →
        ("pw" : String) ≠ "" →
        (∃ b ∈ loadBackends (fun _ => some ⟨"fb", true, fun _ _ => .ok false none⟩)
            [⟨1, "file", "f", true, 10⟩], b.enabled = true) →
        (authenticate (fun _ _ => true) (fun x => x) 100
          (reload_backends (fun _ => some ⟨"fb", true, fun _ _ => .ok false none⟩)
            [⟨1, "file", "f", true, 10⟩]
            ⟨[], ⟨300, 10, [("u", ⟨"pw", 0, [("a", "1")]⟩)], 0, 0⟩, []⟩)
          "u" "pw").invoked ≠ [])) :=
  c7_reload_rebuilds_and_invalidates
    (fun _ => some ⟨"fb", true, fun _ _ => .ok false none⟩)
    [⟨1, "file", "f", true, 10⟩] (fun _ _ => true) (fun x => x) 0 100
    ⟨[], ⟨300, 10, [("u", ⟨"pw", 0, [("a", "1")]⟩)], 0, 0⟩, []⟩
    "u" "pw" (true, [("a", "1")]) (by decide)

/-- C5: the chain the Router walks is the enabled configuration rows in
ascending `(priority, identifier)` order; on a cache miss for a non-MFA
identity the first granting adapter's attributes are returned and no
adapter after it (in that order) is invoked. -/
theorem c5_priority_order_first_success
    (rows : List BackendConfigRow)
    (instantiate : BackendConfigRow → Option RadiusBackend)
    (vt : String → String → Bool) (hash : String → String) (now : Nat)
    (cache : AuthCache) (db : MfaDb) (u s : String)
    (bs₁ bs₂ : List RadiusBackend) (b : RadiusBackend) (a : Attrs)
    (hu : u ≠ "") (hs : s ≠ "")
    (hmfa : is_mfa_enabled db u = false)
    (hmiss : lookupKey cache.cache u = none)
    (hsize : 0 < cache.maxSize)
    (hsplit : loadBackends instantiate rows = bs₁ ++ b :: bs₂)
    (hfail : ∀ b' ∈ bs₁, b'.enabled = true →
      b'.auth u s = .err ∨ ∃ t, b'.auth u s = .ok false t)
    (hb : b.enabled = true) (hg : b.auth u s = .ok true (some a)) :
    List.Sorted rowLE (list_backends_enabled rows) ∧
    (list_backends_enabled rows).Perm (rows.filter (·.enabled)) ∧
    (authenticate vt hash now ⟨loadBackends instantiate rows, cache, db⟩ u s).granted
      = true ∧
    (authenticate vt hash now ⟨loadBackends instantiate rows, cache, db⟩ u s).attrs
      = some a ∧
    (authenticate vt hash now ⟨loadBackends instantiate rows, cache, db⟩ u s).invoked
      = (bs₁.filter (fun x => x.enabled)).map (fun x => x.name) ++ [b.name] := by
  refine ⟨list_backends_enabled_sorted rows, list_backends_enabled_perm rows, ?_⟩
  obtain ⟨cache', hwalk⟩ := chainWalk_first_success hash now u s bs₁ bs₂ b a
    { cache with misses := cache.misses + 1 } db hsize hfail hb hg
  have hauth : authenticate vt hash now ⟨loadBackends instantiate rows, cache, db⟩ u s
      = authViaChain hash now false false u s ⟨loadBackends instantiate rows, cache, db⟩
          { cache with misses := cache.misses + 1 } := by
    rw [authenticate_nonmfa vt hash now _ u s hu hs hmfa]
    rw [AuthCache.get_miss hash now _ u s hmiss]
  have hbe : (bs₁ ++ b :: bs₂).isEmpty = false := by
    cases bs₁ with
    | nil => rfl
    | cons x xs => rfl
  rw [hauth]
  simp only [authViaChain, hsplit, hbe, Bool.false_eq_true, if_false, hwalk]
  exact ⟨trivial, trivial, trivial⟩

/-- C5 witness: three enabled adapters with priorities 10, 20, 30 stored in
shuffled order; only the priority-20 adapter accepts. The sorted chain is
walked, priority 10 is tried and fails, priority 20 answers, priority 30 is
never invoked, and the result carries the priority-20 attributes. -/
theorem c5_witness :
    List.Sorted rowLE (list_backends_enabled
      [⟨3, "file", "f30", true, 30⟩, ⟨1, "file", "f10", true, 10⟩,
       ⟨2, "file", "f20", true, 20⟩]) ∧
    (list_backends_enabled
      [⟨3, "file", "f30", true, 30⟩, ⟨1, "file", "f10", true, 10⟩,
       ⟨2, "file", "f20", true, 20⟩]).Perm
      ([⟨3, "file", "f30", true, 30⟩, ⟨1, "file", "f10", true, 10⟩,
        ⟨2, "file", "f20", true, 20⟩].filter (·.enabled)) ∧
    (authenticate (fun _ _ => true) (fun x => x) 0
      ⟨loadBackends
         (fun row => if row.id = 1 then some ⟨"b10", true, fun _ _ => .ok false none⟩
           else if row.id = 2 then
             some ⟨"b20", true, fun _ _ => .ok true (some [("winner", "20")])⟩
           else some ⟨"b30", true, fun _ _ => .ok true (some [("winner", "30")])⟩)
         [⟨3, "file", "f30", true, 30⟩, ⟨1, "file", "f10", true, 10⟩,
          ⟨2, "file", "f20", true, 20⟩],
       ⟨300, 1000, [], 0, 0⟩, []⟩ "alice" "pw").granted = true ∧
    (authenticate (fun _ _ => true) (fun x => x) 0
      ⟨loadBackends
         (fun row => if row.id = 1 then some ⟨"b10", true, fun _ _ => .ok false none⟩
           else if row.id = 2 then
             some ⟨"b20", true, fun _ _ => .ok true (some [("winner", "20")])⟩
           else some ⟨"b30", true, fun _ _ => .ok true (some [("winner", "30")])⟩)
         [⟨3, "file", "f30", true, 30⟩, ⟨1, "file", "f10", true, 10⟩,
          ⟨2, "file", "f20", true, 20⟩],
       ⟨300, 1000, [], 0, 0⟩, []⟩ "alice" "pw").attrs = some [("winner", "20")] ∧
    (authenticate (fun _ _ => true) (fun x => x) 0
      ⟨loadBackends
         (fun row => if row.id = 1 then some ⟨"b10", true, fun _ _ => .ok false none⟩
           else if row.id = 2 then
             some ⟨"b20", true, fun _ _ => .ok true (some [("winner", "20")])⟩
           else some ⟨"b30", true, fun _ _ => .ok true (some [("winner", "30")])⟩)
         [⟨3, "file", "f30", true, 30⟩, ⟨1, "file", "f10", true, 10⟩,
          ⟨2, "file", "f20", true, 20⟩],
       ⟨300, 1000, [], 0, 0⟩, []⟩ "alice" "pw").invoked
      = ([(⟨"b10", true, fun _ _ => .ok false none⟩ : RadiusBackend)].filter
          (fun x => x.enabled)).map (fun x => x.name)
        ++ [(⟨"b20", true, fun _ _ => .ok true (some [("winner", "20")])⟩ :
              RadiusBackend).name] :=
  c5_priority_order_first_success
    [⟨3, "file", "f30", true, 30⟩, ⟨1, "file", "f10", true, 10⟩,
     ⟨2, "file", "f20", true, 20⟩]
    (fun row => if row.id = 1 then some ⟨"b10", true, fun _ _ => .ok false none⟩
      else if row.id = 2 then
        some ⟨"b20", true, fun _ _ => .ok true (some [("winner", "20")])⟩
      else some ⟨"b30", true, fun _ _ => .ok true (some [("winner", "30")])⟩)
    (fun _ _ => true) (fun x => x) 0 ⟨300, 1000, [], 0, 0⟩ [] "alice" "pw"
    [⟨"b10", true, fun _ _ => .ok false none⟩]
    [⟨"b30", true, fun _ _ => .ok true (some [("winner", "30")])⟩]
    ⟨"b20", true, fun _ _ => .ok true (some [("winner", "20")])⟩
    [("winner", "20")]
    (by decide) (by decide) (by decide) (by decide) (by decide) rfl
    (by
      intro b' hb' hen
      simp only [List.mem_singleton] at hb'
      subst hb'
      exact Or.inr ⟨none, rfl⟩)
    rfl rfl

/-- C3: for an identity without MFA, after a first `authenticate` that
succeeds by walking the chain (not from the cache) with attribute bag `a`,
a second call within the TTL returns `granted=true` with the same bag and
invokes no adapter; a third call issued more than TTL seconds after the
cache insertion invokes the adapter chain again. -/
theorem c3_cache_roundtrip (vt : String → String → Bool) (hash : String → String)
    (t₁ t₂ t₃ : Nat) (st : ManagerState) (u s : String) (a : Attrs)
    (hmfa : is_mfa_enabled st.mfadb u = false) (hu : u ≠ "") (hs : s ≠ "")
    (h1 : (authenticate vt hash t₁ st u s).granted = true)
    (h2 : (authenticate vt hash t₁ st u s).fromCache = false)
    (h3 : (authenticate vt hash t₁ st u s).attrs = some a)
    (hin : t₂ - t₁ ≤ st.cache.ttl)
    (hout : st.cache.ttl < t₃ - t₁) :
    (authenticate vt hash t₂ (authenticate vt hash t₁ st u s).state u s).granted = true ∧
    (authenticate vt hash t₂ (authenticate vt hash t₁ st u s).state u s).attrs = some a ∧
    (authenticate vt hash t₂ (authenticate vt hash t₁ st u s).state u s).invoked = [] ∧
    (authenticate vt hash t₃
      (authenticate vt hash t₂ (authenticate vt hash t₁ st u s).state u s).state
      u s).invoked ≠ [] := by
  rcases hget : st.cache.get hash t₁ u s with ⟨cres, cache1⟩
  cases cres with
  | some r =>
    have heq : authenticate vt hash t₁ st u s
        = ⟨r.1, some r.2, { st with cache := cache1 }, [], true⟩ := by
      rw [authenticate_nonmfa vt hash t₁ st u s hu hs hmfa, hget]
    rw [heq] at h2
    simp at h2
  | none =>
    have heq : authenticate vt hash t₁ st u s
        = authViaChain hash t₁ false false u s st cache1 := by
      rw [authenticate_nonmfa vt hash t₁ st u s hu hs hmfa, hget]
    by_cases hbe : st.backends.isEmpty = true
    · rw [heq] at h1
      simp [authViaChain, hbe] at h1
    · have hbe' : st.backends.isEmpty = false := by
        revert hbe
        cases st.backends.isEmpty <;> simp
      rw [heq] at h1 h3 ⊢
      simp only [authViaChain, hbe', Bool.false_eq_true, if_false] at h1 h3 ⊢
      set w := chainWalk hash t₁ false false u s st.backends cache1 st.mfadb with hw
      have hdb : w.2.2.1 = st.mfadb :=
        chainWalk_db_nonmfa hash t₁ false u s st.backends cache1 st.mfadb
      have hgl : lookupKey w.2.1.cache u = some ⟨hash s, t₁, (w.1.2).getD []⟩ :=
        chainWalk_granted_lookup hash t₁ false false u s st.backends cache1 st.mfadb h1
      have hgl' : lookupKey w.2.1.cache u = some ⟨hash s, t₁, a⟩ := by
        rw [hgl, h3]
        rfl
      have hc1 : cache1.ttl = st.cache.ttl := by
        have h := AuthCache.get_ttl hash t₁ st.cache u s
        rw [hget] at h
        exact h.1
      have httl : w.2.1.ttl = st.cache.ttl :=
        (chainWalk_ttl_maxSize hash t₁ false false u s st.backends cache1 st.mfadb).1.trans hc1
      have henb : ∃ b ∈ st.backends, b.enabled = true :=
        chainWalk_granted_enabled hash t₁ false false u s st.backends cache1 st.mfadb h1
      rw [hdb]
      have hfresh : ¬ t₂ - (⟨hash s, t₁, a⟩ : CacheEntry).timestamp > w.2.1.ttl := by
        rw [httl]
        exact Nat.not_lt.mpr hin
      have e2 : authenticate vt hash t₂ ⟨st.backends, w.2.1, st.mfadb⟩ u s
          = ⟨true, some a,
             ⟨st.backends, { w.2.1 with hits := w.2.1.hits + 1 }, st.mfadb⟩, [], true⟩ := by
        rw [authenticate_nonmfa vt hash t₂ ⟨st.backends, w.2.1, st.mfadb⟩ u s hu hs hmfa]
        rw [AuthCache.get_hit hash t₂ w.2.1 u s ⟨hash s, t₁, a⟩ hgl' hfresh rfl]
      rw [e2]
      refine ⟨rfl, rfl, rfl, ?_⟩
      show (authenticate vt hash t₃
        ⟨st.backends, { w.2.1 with hits := w.2.1.hits + 1 }, st.mfadb⟩ u s).invoked ≠ []
      have hexp : t₃ - (⟨hash s, t₁, a⟩ : CacheEntry).timestamp
          > ({ w.2.1 with hits := w.2.1.hits + 1 } : AuthCache).ttl := by
        show w.2.1.ttl < t₃ - t₁
        rw [httl]
        exact hout
      rw [authenticate_nonmfa vt hash t₃
        ⟨st.backends, { w.2.1 with hits := w.2.1.hits + 1 }, st.mfadb⟩ u s hu hs hmfa]
      rw [AuthCache.get_expired hash t₃ { w.2.1 with hits := w.2.1.hits + 1 } u s
        ⟨hash s, t₁, a⟩ hgl' hexp]
      simp only [authViaChain, hbe', Bool.false_eq_true, if_false]
      exact chainWalk_invoked_ne hash t₃ false false u s st.backends _ _ henb

/-- C3 witness: a single always-granting adapter; the first call at time 0
walks the chain, the second at time 100 (TTL 300) answers from the cache
with the same bag and no invocation, the third at time 301 walks again. -/
theorem c3_witness :
    is_mfa_enabled ([] : MfaDb) "alice" = false ∧
    (authenticate (fun _ _ => true) (fun x => x) 0
      ⟨[⟨"b", true, fun _ _ => .ok true (some [("m", "ok")])⟩],
       ⟨300, 1000, [], 0, 0⟩, []⟩ "alice" "pw").granted = true ∧
    ((authenticate (fun _ _ => true) (fun x => x) 100
        (authenticate (fun _ _ => true) (fun x => x) 0
          ⟨[⟨"b", true, fun _ _ => .ok true (some [("m", "ok")])⟩],
           ⟨300, 1000, [], 0, 0⟩, []⟩ "alice" "pw").state "alice" "pw").granted = true ∧
      (authenticate (fun _ _ => true) (fun x => x) 100
        (authenticate (fun _ _ => true) (fun x => x) 0
          ⟨[⟨"b", true, fun _ _ => .ok true (some [("m", "ok")])⟩],
           ⟨300, 1000, [], 0, 0⟩, []⟩ "alice" "pw").state "alice" "pw").attrs
        = some [("m", "ok")] ∧
      (authenticate (fun _ _ => true) (fun x => x) 100
        (authenticate (fun _ _ => true) (fun x => x) 0
          ⟨[⟨"b", true, fun _ _ => .ok true (some [("m", "ok")])⟩],
           ⟨300, 1000, [], 0, 0⟩, []⟩ "alice" "pw").state "alice" "pw").invoked = [] ∧
      (authenticate (fun _ _ => true) (fun x => x) 301
        (authenticate (fun _ _ => true) (fun x => x) 100
          (authenticate (fun _ _ => true) (fun x => x) 0
            ⟨[⟨"b", true, fun _ _ => .ok true (some [("m", "ok")])⟩],
             ⟨300, 1000, [], 0, 0⟩, []⟩ "alice" "pw").state "alice" "pw").state
        "alice" "pw").invoked ≠ []) :=
  ⟨rfl, rfl,
   c3_cache_roundtrip (fun _ _ => true) (fun x => x) 0 100 301
     ⟨[⟨"b", true, fun _ _ => .ok true (some [("m", "ok")])⟩],
      ⟨300, 1000, [], 0, 0⟩, []⟩ "alice" "pw" [("m", "ok")]
     rfl (by decide) (by decide) rfl rfl rfl (by decide) (by decide)⟩

end RoXX
